import Mathlib

/-!
Verification of the HR analytics analysis pipeline (backend/src/services/openaiService.js,
backend/src/services/dataService.js, backend/src/routes/employees.js) against its
natural-language specification.

Shallow embedding conventions:
* JSON values are modelled by the inductive `Json`; numbers are rationals
  (JSON numbers are finite decimals, so every value produced by a strict parse
  is representable).
* `JSON.parse` is a JS builtin, not repository code; it is abstracted as a
  parameter `jp : String -> Option Json` (`none` models a parse exception).
* JS `undefined` is modelled by `Option`; JS template interpolation of a missing
  value yields the literal string "undefined" (`optStr`).
* `parseFloat` (another builtin) is modelled faithfully for decimal literals,
  signs, exponents and the `Infinity` literal; JS number-to-string display for
  non-terminating decimals is approximated (unreachable from JSON doubles).
* Machine floats are modelled as rationals; no rounding is relevant to any claim
  (all constants are short decimals, and all claims are order/clamp claims).
-/

/-- A parsed JSON value.  Object fields are kept in textual order; duplicate
keys resolve to the last occurrence, as `JSON.parse` does. -/
inductive Json where
  | null
  | bool (b : Bool)
  | num (q : ℚ)
  | str (s : String)
  | arr (elems : List Json)
  | obj (fields : List (String × Json))

/-- Result of JS `parseFloat`: a finite number or a signed infinity
(`parseFloat "Infinity"`); `none` at the use sites stands for `NaN`. -/
inductive JNum where
  | fin (q : ℚ)
  | inf (pos : Bool)

/-- JS property access `o.k` on a parsed value: a field of an object, otherwise
`undefined` (`none`).  Duplicate keys: last one wins, as in `JSON.parse`. -/
def lookupLast : List (String × Json) → String → Option Json
  | [], _ => none
  | (k, v) :: rest, key =>
    match lookupLast rest key with
    | some r => some r
    | none => if k = key then some v else none

def getField (j : Json) (key : String) : Option Json :=
  match j with
  | .obj fields => lookupLast fields key
  | _ => none

/-- Whitespace for JS string-to-number coercion (the common code points). -/
def isWsChar (c : Char) : Bool :=
  c == ' ' || c == '\t' || c == '\n' || c == '\r' ||
  c == Char.ofNat 11 || c == Char.ofNat 12 || c == Char.ofNat 160

def digitVal (c : Char) : ℕ := c.toNat - '0'.toNat

def natOfDigits (ds : List Char) : ℕ := ds.foldl (fun a c => 10 * a + digitVal c) 0

/-- Value of a fractional digit block: digits `ds` after a decimal point. -/
def fracVal (ds : List Char) : ℚ := (natOfDigits ds : ℚ) / (10 : ℚ) ^ ds.length

/-- Exponent part of a decimal literal (`e`/`E`, optional sign, digits); if no
digit follows the marker the marker itself is not consumed, as in JS. -/
def applyExpTail (v : ℚ) (r : List Char) : ℚ :=
  let signed : ℤ × List Char :=
    match r with
    | '+' :: t => (1, t)
    | '-' :: t => (-1, t)
    | _ => (1, r)
  let ds := signed.2.takeWhile Char.isDigit
  if ds.isEmpty then v
  else v * (10 : ℚ) ^ (signed.1 * (natOfDigits ds : ℤ))

def applyExp (v : ℚ) (rest : List Char) : ℚ :=
  match rest with
  | 'e' :: r => applyExpTail v r
  | 'E' :: r => applyExpTail v r
  | _ => v

/-- Unsigned decimal literal prefix ("5", "5.", "5.25", ".5", with optional
exponent); `none` when no valid prefix exists (JS `NaN`). -/
def parseUnsigned (s : List Char) : Option ℚ :=
  let d1 := s.takeWhile Char.isDigit
  let r1 := s.dropWhile Char.isDigit
  if d1.isEmpty then
    match r1 with
    | '.' :: r2 =>
      let d2 := r2.takeWhile Char.isDigit
      if d2.isEmpty then none
      else some (applyExp (fracVal d2) (r2.dropWhile Char.isDigit))
    | _ => none
  else
    match r1 with
    | '.' :: r2 =>
      let d2 := r2.takeWhile Char.isDigit
      some (applyExp ((natOfDigits d1 : ℚ) + fracVal d2) (r2.dropWhile Char.isDigit))
    | _ => some (applyExp (natOfDigits d1) r1)

/-- JS `parseFloat` on a string: skip whitespace, optional sign, `Infinity`
literal or decimal literal prefix; `none` is `NaN`. -/
def parseFloatStr (s : List Char) : Option JNum :=
  let s1 := s.dropWhile isWsChar
  let signed : Bool × List Char :=
    match s1 with
    | '+' :: t => (false, t)
    | '-' :: t => (true, t)
    | _ => (false, s1)
  if "Infinity".data.isPrefixOf signed.2 then some (.inf (!signed.1))
  else
    match parseUnsigned signed.2 with
    | some v => some (.fin (if signed.1 then -v else v))
    | none => none

/-- Decimal display of a rational, as JS prints numbers: exact for integers and
terminating decimals (minimal digits); non-terminating decimals — which cannot
arise from JSON doubles — fall back to a non-numeric placeholder. -/
def ratToDisplayString (q : ℚ) : String :=
  if q.den = 1 then toString q.num
  else
    match (List.range 30).find? (fun k => 10 ^ k % q.den = 0) with
    | some k =>
      let scaled := q.num.natAbs * (10 ^ k / q.den)
      let s := toString scaled
      let s := (String.mk (List.replicate (k + 1 - s.length) '0')) ++ s
      (if q < 0 then "-" else "") ++ s.take (s.length - k) ++ "." ++ s.drop (s.length - k)
    | none => "NaN"

-- JS `Array.prototype.toString` (elements joined by commas; `null` renders
-- empty; nested arrays flatten; objects render "[object Object]").
mutual
def jsElemString : Json → String
  | .null => ""
  | .bool b => if b then "true" else "false"
  | .num q => ratToDisplayString q
  | .str s => s
  | .arr l => jsArrayString l
  | .obj _ => "[object Object]"

def jsArrayString : List Json → String
  | [] => ""
  | [j] => jsElemString j
  | j :: rest => jsElemString j ++ "," ++ jsArrayString rest
end

/-- JS `parseFloat(x)` for a possibly-undefined JSON value `x` (the argument is
coerced to a string first: `undefined`, `null`, booleans and objects coerce to
non-numeric strings, hence `NaN`). -/
def jsParseFloat : Option Json → Option JNum
  | none => none
  | some (.num q) => some (.fin q)
  | some (.str s) => parseFloatStr s.data
  | some .null => none
  | some (.bool _) => none
  | some (.arr l) => parseFloatStr (jsArrayString l).data
  | some (.obj _) => none

/-- openaiService.validateScore: coerce with `parseFloat`, default 7.5 on NaN,
otherwise `Math.max(1, Math.min(10, num))` (infinities clamp to the ends). -/
def validateScore (x : Option Json) : ℚ :=
  match jsParseFloat x with
  | none => 7.5
  | some (.fin q) => max 1 (min 10 q)
  | some (.inf pos) => if pos then 10 else 1

/-- JS truthiness of a JSON value. -/
def jsTruthy : Json → Bool
  | .null => false
  | .bool b => b
  | .num q => !(q == 0)
  | .str s => !(s == "")
  | .arr _ => true
  | .obj _ => true

/-- JS `v || d` for a possibly-undefined JSON value `v`. -/
def jsOrJson (v : Option Json) (d : Json) : Json :=
  match v with
  | some j => if jsTruthy j then j else d
  | none => d

def asArray : Option Json → Option (List Json)
  | some (.arr l) => some l
  | _ => none

/-- The validated employee analysis payload.  Narrative fields pass any truthy
JSON value through unchanged, so they stay `Json`-typed. -/
structure EmployeeAnalysis where
  overallScore : ℚ
  performanceScore : ℚ
  skillsScore : ℚ
  potentialScore : ℚ
  strengths : List Json
  improvements : List Json
  developmentPlan : Json
  riskAssessment : Json
  careerPath : Json

/-- openaiService.validateEmployeeAnalysis. -/
def validateEmployeeAnalysis (a : Json) : EmployeeAnalysis :=
  { overallScore := validateScore (getField a "overallScore")
    performanceScore := validateScore (getField a "performanceScore")
    skillsScore := validateScore (getField a "skillsScore")
    potentialScore := validateScore (getField a "potentialScore")
    strengths :=
      match asArray (getField a "strengths") with
      | some l => l
      | none => [.str "技能表現良好"]
    improvements :=
      match asArray (getField a "improvements") with
      | some l => l
      | none => [.str "持續學習新技能"]
    developmentPlan := jsOrJson (getField a "developmentPlan") (.str "建議制定個人發展計劃")
    riskAssessment := jsOrJson (getField a "riskAssessment") (.str "整體風險較低")
    careerPath := jsOrJson (getField a "careerPath") (.str "建議逐步提升專業能力") }

/-- openaiService.parseEmployeeTextResponse: heuristic text fallback with
neutral scores and a truncated prefix of the raw reply (`content.slice(0, 200)`,
modelled as the first 200 characters). -/
def parseEmployeeTextResponse (content : String) : EmployeeAnalysis :=
  { overallScore := 8
    performanceScore := 8.2
    skillsScore := 7.8
    potentialScore := 8.5
    strengths := [.str "基於AI分析的優勢識別"]
    improvements := [.str "基於AI分析的改進建議"]
    developmentPlan := .str (content.take 200 ++ "...")
    riskAssessment := .str "需要進一步評估"
    careerPath := .str "建議諮詢專業顧問" }

/-- An employee subject.  JS objects have no schema; the fields read anywhere in
the pipeline are modelled, each optional (`none` is JS `undefined`).  A present
non-array `skills` value behaves like an absent one in the prompt builder
(`Array.isArray` guard), so `skills` is modelled as an optional array. -/
structure Employee where
  id : String
  name : Option String
  position : Option String
  department : Option String
  experience : Option ℚ
  joinDate : Option String
  skills : Option (List String)
  specialization : Option String
  recentPerformance : Option String
  feedback : Option String
  projectContribution : Option String
  analysisType : Option String
  timeRange : Option String

/-- JS template interpolation of a possibly-undefined string value. -/
def optStr (o : Option String) : String := o.getD "undefined"

/-- Result envelope returned by the service methods:
`(success, data, source)`. -/
structure AnalysisResult where
  success : Bool
  data : EmployeeAnalysis
  source : String

/-- openaiService.getMockEmployeeAnalysis: the deterministic offline analysis. -/
def getMockEmployeeAnalysis (e : Employee) : AnalysisResult :=
  { success := true
    data :=
      { overallScore := 8.2
        performanceScore := 8.5
        skillsScore := 7.8
        potentialScore := 8.7
        strengths :=
          [.str ("在" ++ optStr e.position ++ "領域表現突出"),
           .str "學習能力強，適應性好",
           .str "團隊協作積極主動",
           .str "問題解決能力優秀"]
        improvements :=
          [.str "可進一步提升技術深度",
           .str "建議加強跨部門協作經驗",
           .str "可考慮承擔更多領導責任"]
        developmentPlan :=
          .str ("建議" ++ optStr e.name ++
            "在接下來6個月內重點發展技術領導力，參與更多跨功能項目，並考慮進修相關認證課程。")
        riskAssessment := .str "整體風險較低，建議定期關注職涯發展需求和工作滿意度。"
        careerPath := .str ("適合往資深" ++ optStr e.position ++ "或技術管理方向發展。") }
    source := "mock" }

/-- openaiService.getFallbackEmployeeAnalysis (the error path delegates to the
mock generator wholesale). -/
def getFallbackEmployeeAnalysis (e : Employee) : AnalysisResult :=
  getMockEmployeeAnalysis e

/-! extractJSON.  The source applies two JS regexes to the reply text:
first a fenced-code-block pattern whose capture group is the span from the
first opening brace after the fence to the greedily-chosen closing brace that
is still followed by optional whitespace and a closing fence; then, failing
that, a bare pattern matching from the first opening brace of the text to the
last closing brace; else the raw text.  The functions below reproduce the
backtracking semantics of those two patterns position by position. -/

def braceOpen : Char := Char.ofNat 123

def braceClose : Char := Char.ofNat 125

/-- Length of the maximal whitespace run of `s` starting at `i`. -/
def wsRunLen (s : List Char) (i : ℕ) : ℕ := ((s.drop i).takeWhile isWsChar).length

/-- Does a three-backtick fence start at position `p`? -/
def fenceAt (s : List Char) (p : ℕ) : Bool := decide ("```".data <+: s.drop p)

/-- After a closing brace: the pattern tail (optional whitespace, then a
closing fence) must match at `k`. -/
def tailOk (s : List Char) (k : ℕ) : Bool := fenceAt s (k + wsRunLen s k)

/-- Greedy choice of the closing brace: the largest `j` past the opening brace
holding a closing brace whose tail matches. -/
def findBestClose (s : List Char) (openIdx : ℕ) : Option ℕ :=
  ((List.range s.length).filter
    (fun j => decide (openIdx < j) && (s[j]? == some braceClose) && tailOk s (j + 1))).getLast?

/-- One alternative of the optional "json" tag: from position `r`, skip
whitespace, require an opening brace, and close greedily. -/
def branchAt (s : List Char) (r : ℕ) : Option (List Char) :=
  let q := r + wsRunLen s r
  if s[q]? == some braceOpen then
    match findBestClose s q with
    | some j => some ((s.drop q).take (j - q + 1))
    | none => none
  else none

/-- Attempt the fenced pattern anchored at position `p`. -/
def tryFenceAt (s : List Char) (p : ℕ) : Option (List Char) :=
  if fenceAt s p then
    let q := p + 3
    (if "json".data.isPrefixOf (s.drop q) then branchAt s (q + 4) else none) <|> branchAt s q
  else none

/-- Leftmost match of the fenced pattern (capture group only). -/
def fencedMatch (s : List Char) : Option (List Char) :=
  (List.range s.length).findSome? (fun p => tryFenceAt s p)

def firstIdxOf (s : List Char) (c : Char) : Option ℕ := s.findIdx? (fun x => x == c)

def lastIdxOf (s : List Char) (c : Char) : Option ℕ :=
  match s.reverse.findIdx? (fun x => x == c) with
  | some k => some (s.length - 1 - k)
  | none => none

/-- The bare object pattern: greedy, so it spans from the first opening brace
to the last closing brace of the whole text (when the latter lies further
right). -/
def objectMatch (s : List Char) : Option (List Char) :=
  match firstIdxOf s braceOpen, lastIdxOf s braceClose with
  | some i, some j => if i < j then some ((s.drop i).take (j - i + 1)) else none
  | _, _ => none

/-- openaiService.extractJSON. -/
def extractJSON (content : String) : String :=
  match fencedMatch content.data with
  | some m => ⟨m⟩
  | none =>
    match objectMatch content.data with
    | some m => ⟨m⟩
    | none => content

/-- openaiService.parseEmployeeAnalysis, with `JSON.parse` abstracted as `jp`.
A reply parsing to JSON `null` is routed to the text path: in the source,
property access on `null` inside `validateEmployeeAnalysis` throws within the
same `try`, landing in the text-fallback `catch` arm. -/
def parseEmployeeAnalysis (jp : String → Option Json) (content : String) : AnalysisResult :=
  match jp (extractJSON content) with
  | some .null =>
    { success := true, data := parseEmployeeTextResponse content, source := "openai-parsed" }
  | some j =>
    { success := true, data := validateEmployeeAnalysis j, source := "openai" }
  | none =>
    { success := true, data := parseEmployeeTextResponse content, source := "openai-parsed" }

/-- openaiService.analyzeEmployee.  `hasClient` is the credential check done at
construction; `call` is the outcome of the single provider invocation (`.ok`
carries the reply text, `.error` models any thrown failure, including a
malformed response object). -/
def analyzeEmployee (jp : String → Option Json) (hasClient : Bool)
    (call : Except Unit String) (e : Employee) : AnalysisResult :=
  if !hasClient then getMockEmployeeAnalysis e
  else
    match call with
    | .ok content => parseEmployeeAnalysis jp content
    | .error _ => getFallbackEmployeeAnalysis e

/-- Modelled from the spec (§4.3 claim wording, for comparison only): "the
first balanced span" of the text — scan to the first opening brace, then to
the brace that closes it. -/
def spanScan : List Char → ℕ → List Char → Option (List Char)
  | [], _, _ => none
  | c :: rest, depth, acc =>
    if c == braceOpen then spanScan rest (depth + 1) (acc ++ [c])
    else if c == braceClose then
      if depth ≤ 1 then some (acc ++ [c]) else spanScan rest (depth - 1) (acc ++ [c])
    else spanScan rest depth (acc ++ [c])

/-- Modelled from the spec: the first balanced brace-delimited span of a text,
if any. -/
def firstBalancedSpan (s : String) : Option String :=
  match s.data.dropWhile (fun c => !(c == braceOpen)) with
  | [] => none
  | t => (spanScan t 0 []).map (fun l => ⟨l⟩)

/-! The analysis record store (dataService.js).  The backing JSON file is the
`log` list; `uuidv4()` is modelled by a fresh-id counter (`nextId`), and
`new Date().toISOString()` by a millisecond clock value passed by the caller
(ISO strings of later instants compare greater, so `ℕ` order is timestamp
order).  Request-scoped extra metadata (analysisType echo, request id) plays
no role in any claim and is omitted from the record. -/

structure AnalysisRecord where
  id : ℕ
  type : String
  targetId : String
  analysis : EmployeeAnalysis
  source : String
  success : Bool
  timestamp : ℕ

structure StoreState where
  log : List AnalysisRecord
  nextId : ℕ

def emptyStore : StoreState := ⟨[], 0⟩

/-- The record built by dataService.saveAnalysis. -/
def mkRecord (st : StoreState) (type targetId : String) (res : AnalysisResult)
    (now : ℕ) : AnalysisRecord :=
  ⟨st.nextId, type, targetId, res.data, res.source, res.success, now⟩

/-- `if (analyses.length > 1000) analyses = analyses.slice(-1000)`: keep the
most recent 1000 entries. -/
def trimTo1000 (l : List AnalysisRecord) : List AnalysisRecord :=
  if 1000 < l.length then l.drop (l.length - 1000) else l

/-- dataService.saveAnalysis: build the record, push it, keep the most recent
1000 entries, return the record. -/
def saveAnalysis (st : StoreState) (type targetId : String) (res : AnalysisResult)
    (now : ℕ) : StoreState × AnalysisRecord :=
  (⟨trimTo1000 (st.log ++ [mkRecord st type targetId res now]), st.nextId + 1⟩,
   mkRecord st type targetId res now)

/-- dataService.getAnalysisHistory: filter by type and target, sort by
timestamp descending (JS sort is stable; `mergeSort` is the stable sort), take
the first `limit`. -/
def getAnalysisHistory (st : StoreState) (type targetId : String) (limit : ℕ) :
    List AnalysisRecord :=
  ((st.log.filter (fun r => r.type == type && r.targetId == targetId)).mergeSort
    (fun a b => decide (b.timestamp ≤ a.timestamp))).take limit

/-- Substring test, JS `String.prototype.includes`. -/
def includesStr (hay sub : String) : Bool := decide (sub.data <:+: hay.data)

structure AnalysisStats where
  total : ℕ
  thisMonth : ℕ
  thisWeek : ℕ
  byTypeEmployee : ℕ
  byTypeTeam : ℕ
  bySourceOpenai : ℕ
  bySourceMock : ℕ
  bySourceFallback : ℕ

/-- dataService.getAnalysisStats.  Calendar decomposition of timestamps
(`getMonth`/`getFullYear`, seven-day window) is abstracted by the two
predicates; the type and source buckets are the exact filters of the source. -/
def getAnalysisStats (st : StoreState) (sameMonth withinWeek : ℕ → Bool) : AnalysisStats :=
  { total := st.log.length
    thisMonth := (st.log.filter (fun r => sameMonth r.timestamp)).length
    thisWeek := (st.log.filter (fun r => withinWeek r.timestamp)).length
    byTypeEmployee := (st.log.filter (fun r => r.type == "employee")).length
    byTypeTeam := (st.log.filter (fun r => r.type == "team")).length
    bySourceOpenai := (st.log.filter (fun r => r.source == "openai")).length
    bySourceMock := (st.log.filter (fun r => r.source == "mock")).length
    bySourceFallback := (st.log.filter (fun r => includesStr r.source "fallback")).length }

/-! Route handlers (routes/employees.js).  A handler result is the HTTP status
together with the store state after the call; payload bodies beyond what the
claims mention are not modelled. -/

/-- dataService.getEmployee: find by id or throw a "... not found" error. -/
def getEmployee (employees : List Employee) (id : String) : Except String Employee :=
  match employees.find? (fun e => e.id == id) with
  | some e => .ok e
  | none => .error ("Employee with id " ++ id ++ " not found")

/-- JS `a || b` over possibly-undefined strings (empty string is falsy). -/
def jsOrStr (a b : Option String) : Option String :=
  match a with
  | some s => if s = "" then b else some s
  | none => b

/-- The request body fields the analyze route reads explicitly.  (The source
also spreads the whole body over the employee; bodies carrying other keys are
outside this model.) -/
structure AnalyzeBody where
  analysisType : Option String
  timeRange : Option String
  recentPerformance : Option String
  feedback : Option String
  projectContribution : Option String

/-- The merge step of POST /:id/analyze: body overrides with defaulting. -/
def mergeAnalysisData (e : Employee) (b : AnalyzeBody) : Employee :=
  { e with
    analysisType := some (match jsOrStr b.analysisType none with
      | some s => s
      | none => "comprehensive")
    timeRange := some (match jsOrStr b.timeRange none with
      | some s => s
      | none => "6months")
    recentPerformance := jsOrStr b.recentPerformance e.recentPerformance
    feedback := jsOrStr b.feedback e.feedback
    projectContribution := jsOrStr b.projectContribution e.projectContribution }

/-- POST /:id/analyze.  An unknown id throws inside the handler's `try`; the
catch arm answers 404 when the message contains "not found", 500 otherwise,
and in either case `saveAnalysis` was never reached. -/
def analyzeRoute (employees : List Employee) (jp : String → Option Json) (hasClient : Bool)
    (call : Except Unit String) (st : StoreState) (id : String) (body : AnalyzeBody)
    (now : ℕ) : ℕ × StoreState :=
  match getEmployee employees id with
  | .error msg => (if includesStr msg "not found" then 404 else 500, st)
  | .ok emp =>
    let result := analyzeEmployee jp hasClient call (mergeAnalysisData emp body)
    (200, (saveAnalysis st "employee" id result now).1)

structure BatchSummary where
  total : ℕ
  successful : ℕ
  failed : ℕ

/-- The per-id loop of POST /batch-analyze: successes and failures are
collected separately and the loop never aborts. -/
def batchLoop (employees : List Employee) (jp : String → Option Json) (hasClient : Bool)
    (call : Except Unit String) (analysisType timeRange : String) (now : ℕ) :
    List String → StoreState → List String × List String × StoreState
  | [], st => ([], [], st)
  | id :: rest, st =>
    match getEmployee employees id with
    | .ok emp =>
      let result := analyzeEmployee jp hasClient call
        { emp with analysisType := some analysisType, timeRange := some timeRange }
      let st2 := (saveAnalysis st "employee" id result now).1
      let tail := batchLoop employees jp hasClient call analysisType timeRange now rest st2
      (id :: tail.1, tail.2.1, tail.2.2)
    | .error _ =>
      let tail := batchLoop employees jp hasClient call analysisType timeRange now rest st
      (tail.1, id :: tail.2.1, tail.2.2)

/-- POST /batch-analyze: 400 on an empty id list, otherwise run the loop and
report `{total, successful, failed}`. -/
def batchRoute (employees : List Employee) (jp : String → Option Json) (hasClient : Bool)
    (call : Except Unit String) (analysisType timeRange : String) (now : ℕ)
    (st : StoreState) (ids : List String) : ℕ × BatchSummary × StoreState :=
  if ids.isEmpty then (400, ⟨0, 0, 0⟩, st)
  else
    let out := batchLoop employees jp hasClient call analysisType timeRange now ids st
    (200, ⟨ids.length, out.1.length, out.2.1.length⟩, out.2.2)

/-! The prompt compiler (openaiService.buildEmployeePrompt / buildTeamPrompt).
Each interpolated template expression is its own definition, and the prompt is
the concatenation of the fixed template text with those slot values. -/

/-- JS `v || d` rendered into a template: a falsy or missing value gives the
default narrative. -/
def jsOrStrVal (o : Option String) (d : String) : String :=
  match o with
  | some s => if s = "" then d else s
  | none => d

def nameSlot (e : Employee) : String := optStr e.name

def positionSlot (e : Employee) : String := optStr e.position

def departmentSlot (e : Employee) : String := optStr e.department

/-- `employee.experience || '未提供'` — note 0 is falsy. -/
def experienceSlot (e : Employee) : String :=
  match e.experience with
  | some q => if q = 0 then "未提供" else ratToDisplayString q
  | none => "未提供"

def joinDateSlot (e : Employee) : String := jsOrStrVal e.joinDate "未提供"

/-- `Array.isArray(employee.skills) ? employee.skills.join(', ') : '未提供'`. -/
def skillsSlot (e : Employee) : String :=
  match e.skills with
  | some l => String.intercalate ", " l
  | none => "未提供"

/-- `employee.specialization || employee.position`. -/
def specializationSlot (e : Employee) : String :=
  match e.specialization with
  | some s => if s = "" then optStr e.position else s
  | none => optStr e.position

def recentPerformanceSlot (e : Employee) : String :=
  jsOrStrVal e.recentPerformance "穩定表現，持續成長"

def feedbackSlot (e : Employee) : String := jsOrStrVal e.feedback "積極參與，協作良好"

def projectContributionSlot (e : Employee) : String :=
  jsOrStrVal e.projectContribution "按時完成任務，品質良好"

def analysisTypeSlot (e : Employee) : String := jsOrStrVal e.analysisType "綜合分析"

def timeRangeSlot (e : Employee) : String := jsOrStrVal e.timeRange "近6個月"

/-- openaiService.buildEmployeePrompt. -/
def buildEmployeePrompt (e : Employee) : String :=
  "請分析以下員工的詳細資料：\n\n基本資訊：\n- 姓名：" ++ nameSlot e ++
  "\n- 職位：" ++ positionSlot e ++
  "\n- 部門：" ++ departmentSlot e ++
  "\n- 工作年資：" ++ experienceSlot e ++
  "年\n- 入職日期：" ++ joinDateSlot e ++
  "\n\n技能與能力：\n- 核心技能：" ++ skillsSlot e ++
  "\n- 專業領域：" ++ specializationSlot e ++
  "\n\n績效表現：\n- 近期表現：" ++ recentPerformanceSlot e ++
  "\n- 團隊反饋：" ++ feedbackSlot e ++
  "\n- 項目貢獻：" ++ projectContributionSlot e ++
  "\n\n分析類型：" ++ analysisTypeSlot e ++
  "\n時間範圍：" ++ timeRangeSlot e ++
  "\n\n請提供全面的員工分析，包括績效評估、發展潛力、技能強弱項分析，以及具體的發展建議和風險評估。"

structure TeamMember where
  name : Option String
  role : Option String
  position : Option String

/-- A team subject; list-valued narrative fields of the sample data render via
JS array-to-string join, modelled as the rendered string. -/
structure Team where
  id : String
  name : Option String
  department : Option String
  memberCount : Option ℚ
  teamType : Option String
  members : Option (List TeamMember)
  leader : Option String
  teamExperience : Option String
  collaborationMode : Option String
  communicationFrequency : Option String
  decisionMaking : Option String
  recentProjects : Option String
  teamPerformance : Option String
  collaborationEfficiency : Option String
  analysisDepth : Option String
  analysisPeriod : Option String

def teamNameSlot (t : Team) : String := optStr t.name

def teamDepartmentSlot (t : Team) : String := jsOrStrVal t.department "未提供"

/-- `team.memberCount || team.members?.length || '未知'` — 0 is falsy at both
steps, and optional chaining of a missing members array gives undefined. -/
def memberCountAlt (t : Team) : String :=
  match t.members with
  | some l => if l.length = 0 then "未知" else toString l.length
  | none => "未知"

def memberCountSlot (t : Team) : String :=
  match t.memberCount with
  | some q => if q = 0 then memberCountAlt t else ratToDisplayString q
  | none => memberCountAlt t

def teamTypeSlot (t : Team) : String := jsOrStrVal t.teamType "專案團隊"

/-- `m.name (m.role || m.position)` for one member row. -/
def memberEntry (m : TeamMember) : String :=
  optStr m.name ++ " (" ++
    (match m.role with
     | some r => if r = "" then optStr m.position else r
     | none => optStr m.position) ++ ")"

/-- `Array.isArray(team.members) ? team.members.map(...).join(', ') : ...`. -/
def membersSlot (t : Team) : String :=
  match t.members with
  | some l => String.intercalate ", " (l.map memberEntry)
  | none => "團隊成員資訊未提供"

def leaderSlot (t : Team) : String := jsOrStrVal t.leader "未指定"

def teamExperienceSlot (t : Team) : String := jsOrStrVal t.teamExperience "2-3年"

def collaborationModeSlot (t : Team) : String := jsOrStrVal t.collaborationMode "混合工作模式"

def communicationFrequencySlot (t : Team) : String :=
  jsOrStrVal t.communicationFrequency "每日站會 + 週會"

def decisionMakingSlot (t : Team) : String := jsOrStrVal t.decisionMaking "共識決策"

def recentProjectsSlot (t : Team) : String := jsOrStrVal t.recentProjects "持續進行多個專案"

def teamPerformanceSlot (t : Team) : String := jsOrStrVal t.teamPerformance "整體表現良好"

def collaborationEfficiencySlot (t : Team) : String :=
  jsOrStrVal t.collaborationEfficiency "高效協作"

def analysisDepthSlot (t : Team) : String := jsOrStrVal t.analysisDepth "標準分析"

def analysisPeriodSlot (t : Team) : String := jsOrStrVal t.analysisPeriod "近3個月"

/-- openaiService.buildTeamPrompt. -/
def buildTeamPrompt (t : Team) : String :=
  "請分析以下團隊的詳細資料：\n\n團隊基本資訊：\n- 團隊名稱：" ++ teamNameSlot t ++
  "\n- 所屬部門：" ++ teamDepartmentSlot t ++
  "\n- 成員數量：" ++ memberCountSlot t ++
  "\n- 團隊類型：" ++ teamTypeSlot t ++
  "\n\n團隊組成：\n- 成員列表：" ++ membersSlot t ++
  "\n- 領導者：" ++ leaderSlot t ++
  "\n- 團隊經驗：" ++ teamExperienceSlot t ++
  "\n\n工作模式：\n- 協作方式：" ++ collaborationModeSlot t ++
  "\n- 溝通頻率：" ++ communicationFrequencySlot t ++
  "\n- 決策模式：" ++ decisionMakingSlot t ++
  "\n\n績效狀況：\n- 近期項目：" ++ recentProjectsSlot t ++
  "\n- 團隊績效：" ++ teamPerformanceSlot t ++
  "\n- 協作效率：" ++ collaborationEfficiencySlot t ++
  "\n\n分析深度：" ++ analysisDepthSlot t ++
  "\n分析週期：" ++ analysisPeriodSlot t ++
  "\n\n請提供團隊動力分析，包括協作效率、溝通模式、潛在風險識別，以及具體的團隊優化建議和行動計劃。"

/-- Modelled from the spec (for the C9 comparison): the named default
narratives of the employee template.  The spec asserts every missing field is
replaced by one of these. -/
def employeeTemplateDefaults : List String :=
  ["未提供", "穩定表現，持續成長", "積極參與，協作良好", "按時完成任務，品質良好",
   "綜合分析", "近6個月"]

/-! Concrete fixtures used by counterexamples and witnesses. -/

/-- A `JSON.parse` that always throws (models any free-text reply). -/
def jpNone : String → Option Json := fun _ => none

/-- A `JSON.parse` returning an empty object for any input. -/
def jpObj : String → Option Json := fun _ => some (.obj [])

def empSample : Employee :=
  ⟨"1", some "張小明", some "前端工程師", some "研發部", some 3,
   none, none, none, none, none, none, none, none⟩

def empBlank : Employee :=
  ⟨"E0", none, none, none, none, none, none, none, none, none, none, none, none⟩

def teamBlank : Team :=
  ⟨"T0", none, none, none, none, none, none, none, none, none, none, none, none,
   none, none, none⟩

def empList : List Employee := [empSample]

def mres : AnalysisResult := getMockEmployeeAnalysis empSample

/-- An analysis that went through the text-fallback interpreter path. -/
def parsedRes : AnalysisResult := analyzeEmployee jpNone true (.ok "自由文字回覆") empSample

def stParsed : StoreState := (saveAnalysis emptyStore "employee" "1" parsedRes 0).1

def mkRec (i : ℕ) : AnalysisRecord :=
  ⟨i, "employee", "1", (getMockEmployeeAnalysis empSample).data, "mock", true, i⟩

/-- A store already holding 1000 records (ids and timestamps 0..999). -/
def st1000 : StoreState := ⟨(List.range 1000).map mkRec, 1000⟩

def idsOf (st : StoreState) : List ℕ := st.log.map (fun r => r.id)

/-- Store sanity: every logged id was issued by the counter, and ids are
distinct (the model of uuid freshness). -/
def WFStore (st : StoreState) : Prop :=
  (∀ r ∈ st.log, r.id < st.nextId) ∧ (idsOf st).Nodup

def runAppends (inputs : List (String × String × AnalysisResult × ℕ)) : StoreState :=
  inputs.foldl (fun st i => (saveAnalysis st i.1 i.2.1 i.2.2.1 i.2.2.2).1) emptyStore

/-- A store with two records carrying equal timestamps for the same subject
(two appends within the same millisecond). -/
def stTie : StoreState := runAppends [("employee", "1", mres, 5), ("employee", "1", mres, 5)]

/-! Shared lemmas. -/

theorem validateScore_bounds (x : Option Json) :
    1 ≤ validateScore x ∧ validateScore x ≤ 10 := by
  unfold validateScore
  cases h : jsParseFloat x with
  | none => norm_num
  | some jn =>
    cases jn with
    | fin q =>
      refine ⟨le_max_left 1 _, max_le (by norm_num) (min_le_left 10 q)⟩
    | inf pos => cases pos <;> norm_num

/-- All four score fields of the payload lie in the schema range. -/
def scoresInRange (d : EmployeeAnalysis) : Prop :=
  (1 ≤ d.overallScore ∧ d.overallScore ≤ 10)
  ∧ (1 ≤ d.performanceScore ∧ d.performanceScore ≤ 10)
  ∧ (1 ≤ d.skillsScore ∧ d.skillsScore ≤ 10)
  ∧ (1 ≤ d.potentialScore ∧ d.potentialScore ≤ 10)

theorem scoresInRange_validate (a : Json) : scoresInRange (validateEmployeeAnalysis a) := by
  refine ⟨?_, ?_, ?_, ?_⟩ <;> exact validateScore_bounds _

theorem scoresInRange_mock (e : Employee) : scoresInRange (getMockEmployeeAnalysis e).data := by
  unfold scoresInRange getMockEmployeeAnalysis
  norm_num

theorem scoresInRange_text (content : String) :
    scoresInRange (parseEmployeeTextResponse content) := by
  unfold scoresInRange parseEmployeeTextResponse
  norm_num

theorem mem_of_mem_history {st : StoreState} {t i : String} {l : ℕ} {r : AnalysisRecord}
    (h : r ∈ getAnalysisHistory st t i l) : r ∈ st.log := by
  unfold getAnalysisHistory at h
  have h1 := List.mem_of_mem_take h
  rw [List.mem_mergeSort] at h1
  exact (List.mem_filter.mp h1).1

theorem includesStr_of_infix {hay sub : String} (h : sub.data <:+: hay.data) :
    includesStr hay sub = true :=
  decide_eq_true h

theorem parseEmployeeAnalysis_enum (jp : String → Option Json) (content : String) :
    (parseEmployeeAnalysis jp content).success = true
    ∧ (parseEmployeeAnalysis jp content).source ∈ ["openai", "openai-parsed", "mock"]
    ∧ scoresInRange (parseEmployeeAnalysis jp content).data := by
  unfold parseEmployeeAnalysis
  cases h : jp (extractJSON content) with
  | none => exact ⟨rfl, by simp, scoresInRange_text content⟩
  | some j =>
    cases j with
    | null => exact ⟨rfl, by simp, scoresInRange_text content⟩
    | bool b => exact ⟨rfl, by simp, scoresInRange_validate _⟩
    | num q => exact ⟨rfl, by simp, scoresInRange_validate _⟩
    | str s => exact ⟨rfl, by simp, scoresInRange_validate _⟩
    | arr l => exact ⟨rfl, by simp, scoresInRange_validate _⟩
    | obj fs => exact ⟨rfl, by simp, scoresInRange_validate _⟩

/-- C1: for every subject and every provider behavior (no credential, provider
call throws, or any reply text under any parse outcome), analyzeEmployee
returns normally with `success = true`, a source tag drawn from the fixed
enumeration (`openai` = live-model, `openai-parsed` = parsed-fallback, `mock`),
and a schema-conformant payload (all scores in [1,10]). -/
theorem analyzeEmployee_never_throws_source_enum (jp : String → Option Json)
    (hasClient : Bool) (call : Except Unit String) (e : Employee) :
    (analyzeEmployee jp hasClient call e).success = true
    ∧ (analyzeEmployee jp hasClient call e).source ∈ ["openai", "openai-parsed", "mock"]
    ∧ scoresInRange (analyzeEmployee jp hasClient call e).data := by
  cases hasClient with
  | false =>
    exact ⟨rfl, by simp [analyzeEmployee, getMockEmployeeAnalysis], scoresInRange_mock e⟩
  | true =>
    cases call with
    | error u =>
      refine ⟨rfl, ?_, scoresInRange_mock e⟩
      simp [analyzeEmployee, getFallbackEmployeeAnalysis, getMockEmployeeAnalysis]
    | ok content => exact parseEmployeeAnalysis_enum jp content

/-- C2 counterexample: a configured provider call that fails is tagged
`"mock"`, not a distinct `"error-fallback"`; its result is byte-identical to
the no-credential mock result, so the error path is not distinguishable from
the mock path by the source tag. -/
theorem analyzeEmployee_error_path_not_distinct :
    (analyzeEmployee jpNone true (.error ()) empSample).source = "mock"
    ∧ (analyzeEmployee jpNone true (.error ()) empSample).source ≠ "error-fallback"
    ∧ analyzeEmployee jpNone true (.error ()) empSample
        = analyzeEmployee jpNone false (.ok "x") empSample :=
  ⟨rfl, by decide, rfl⟩

/-- C2 amended: the paths are tagged as follows — no credential gives `mock`;
a configured call that fails also gives `mock` (the error fallback delegates to
the mock generator, so it is not distinct); a reply that strict-parses to a
non-null value gives `openai` (live-model); a reply that does not strict-parse
(or parses to null, whose field access throws into the text arm) gives
`openai-parsed` (parsed-fallback). -/
theorem analyzeEmployee_source_paths (jp : String → Option Json) (e : Employee)
    (content : String) :
    (∀ call, (analyzeEmployee jp false call e).source = "mock")
    ∧ (analyzeEmployee jp true (.error ()) e).source = "mock"
    ∧ analyzeEmployee jp true (.error ()) e = getMockEmployeeAnalysis e
    ∧ (jp (extractJSON content) = none →
        (analyzeEmployee jp true (.ok content) e).source = "openai-parsed")
    ∧ (jp (extractJSON content) = some .null →
        (analyzeEmployee jp true (.ok content) e).source = "openai-parsed")
    ∧ (∀ j, jp (extractJSON content) = some j → j ≠ .null →
        (analyzeEmployee jp true (.ok content) e).source = "openai") := by
  refine ⟨fun call => rfl, rfl, rfl, ?_, ?_, ?_⟩
  · intro h
    show (parseEmployeeAnalysis jp content).source = "openai-parsed"
    unfold parseEmployeeAnalysis
    rw [h]
  · intro h
    show (parseEmployeeAnalysis jp content).source = "openai-parsed"
    unfold parseEmployeeAnalysis
    rw [h]
  · intro j h hnull
    show (parseEmployeeAnalysis jp content).source = "openai"
    unfold parseEmployeeAnalysis
    rw [h]
    cases j with
    | null => exact absurd rfl hnull
    | bool b => rfl
    | num q => rfl
    | str s => rfl
    | arr l => rfl
    | obj fs => rfl

theorem analyzeEmployee_source_paths_witness :
    (analyzeEmployee jpNone true (.ok "free text") empSample).source = "openai-parsed"
    ∧ (analyzeEmployee jpObj true (.ok "reply") empSample).source = "openai" :=
  ⟨(analyzeEmployee_source_paths jpNone empSample "free text").2.2.2.1 rfl,
   (analyzeEmployee_source_paths jpObj empSample "reply").2.2.2.2.2 (.obj []) rfl
     (fun h => Json.noConfusion h)⟩

/-- C5: every score field of the validated payload is the parseFloat coercion
of the corresponding parsed field clamped to [1,10] (7.5 when the coercion is
NaN or the field absent, and always within [1,10]); absent/non-array array
fields become a single-element default; absent narrative fields become a short
default sentence. -/
theorem validateEmployeeAnalysis_spec (a : Json) :
    ((validateEmployeeAnalysis a).overallScore = validateScore (getField a "overallScore")
      ∧ (validateEmployeeAnalysis a).performanceScore
          = validateScore (getField a "performanceScore")
      ∧ (validateEmployeeAnalysis a).skillsScore = validateScore (getField a "skillsScore")
      ∧ (validateEmployeeAnalysis a).potentialScore
          = validateScore (getField a "potentialScore"))
    ∧ (∀ x : Option Json,
        (1 ≤ validateScore x ∧ validateScore x ≤ 10)
        ∧ (∀ q, jsParseFloat x = some (.fin q) → validateScore x = max 1 (min 10 q))
        ∧ (jsParseFloat x = none → validateScore x = 7.5)
        ∧ (x = none → validateScore x = 7.5))
    ∧ (asArray (getField a "strengths") = none →
        (validateEmployeeAnalysis a).strengths = [.str "技能表現良好"]
          ∧ (validateEmployeeAnalysis a).strengths.length = 1)
    ∧ (asArray (getField a "improvements") = none →
        (validateEmployeeAnalysis a).improvements = [.str "持續學習新技能"]
          ∧ (validateEmployeeAnalysis a).improvements.length = 1)
    ∧ (getField a "developmentPlan" = none →
        (validateEmployeeAnalysis a).developmentPlan = .str "建議制定個人發展計劃")
    ∧ (getField a "riskAssessment" = none →
        (validateEmployeeAnalysis a).riskAssessment = .str "整體風險較低")
    ∧ (getField a "careerPath" = none →
        (validateEmployeeAnalysis a).careerPath = .str "建議逐步提升專業能力") := by
  refine ⟨⟨rfl, rfl, rfl, rfl⟩, ?_, ?_, ?_, ?_, ?_, ?_⟩
  · intro x
    refine ⟨validateScore_bounds x, ?_, ?_, ?_⟩
    · intro q h
      unfold validateScore
      rw [h]
    · intro h
      unfold validateScore
      rw [h]
    · intro h
      subst h
      rfl
  · intro h
    unfold validateEmployeeAnalysis
    rw [h]
    exact ⟨rfl, rfl⟩
  · intro h
    unfold validateEmployeeAnalysis
    rw [h]
    exact ⟨rfl, rfl⟩
  · intro h
    unfold validateEmployeeAnalysis jsOrJson
    rw [h]
  · intro h
    unfold validateEmployeeAnalysis jsOrJson
    rw [h]
  · intro h
    unfold validateEmployeeAnalysis jsOrJson
    rw [h]

/-- The fenced reply of spec scenario 3, parsed. -/
def j15 : Json := .obj [("overallScore", .num 15), ("strengths", .str "not-an-array")]

theorem validateEmployeeAnalysis_spec_witness :
    (validateEmployeeAnalysis j15).overallScore = 10
    ∧ (validateEmployeeAnalysis j15).strengths = [.str "技能表現良好"] := by
  have h := validateEmployeeAnalysis_spec j15
  constructor
  · rw [h.1.1]
    have h2 := (h.2.1 (getField j15 "overallScore")).2.1 15 rfl
    rw [h2]
    norm_num
  · exact (h.2.2.1 rfl).1

theorem trimTo1000_length_le (l : List AnalysisRecord) (h : l.length ≤ 1001) :
    (trimTo1000 l).length ≤ 1000 := by
  unfold trimTo1000
  split
  · rename_i hc
    simp only [List.length_drop]
    omega
  · rename_i hc
    omega

theorem saveAnalysis_cap_step (st : StoreState) (t i : String) (res : AnalysisResult)
    (now : ℕ) (h : st.log.length ≤ 1000) :
    ((saveAnalysis st t i res now).1).log.length ≤ 1000 := by
  show (trimTo1000 (st.log ++ [mkRecord st t i res now])).length ≤ 1000
  apply trimTo1000_length_le
  simp only [List.length_append, List.length_cons, List.length_nil]
  omega

theorem runAppends_from (inputs : List (String × String × AnalysisResult × ℕ)) :
    ∀ st : StoreState, st.log.length ≤ 1000 →
      (inputs.foldl (fun st i => (saveAnalysis st i.1 i.2.1 i.2.2.1 i.2.2.2).1) st).log.length
        ≤ 1000 := by
  induction inputs with
  | nil => intro st h; exact h
  | cons a rest ih =>
    intro st h
    exact ih _ (saveAnalysis_cap_step st a.1 a.2.1 a.2.2.1 a.2.2.2 h)

/-- C3: the log never exceeds 1000 records over any append sequence, and an
append to a full log of well-formed (fresh-id) records evicts exactly the
first-inserted record, which then no longer appears in the log nor in any
subsequent history query. -/
theorem saveAnalysis_cap_fifo :
    (∀ inputs, (runAppends inputs).log.length ≤ 1000)
    ∧ (∀ (st : StoreState) (t i : String) (res : AnalysisResult) (now : ℕ)
        (h : AnalysisRecord), WFStore st → st.log.length = 1000 →
          st.log.head? = some h →
          ((saveAnalysis st t i res now).1.log.length = 1000
          ∧ (saveAnalysis st t i res now).1.log
              = st.log.tail ++ [(saveAnalysis st t i res now).2]
          ∧ h ∉ (saveAnalysis st t i res now).1.log
          ∧ ∀ t2 i2 l2, h ∉ getAnalysisHistory (saveAnalysis st t i res now).1 t2 i2 l2)) := by
  constructor
  · intro inputs
    exact runAppends_from inputs emptyStore (by simp [emptyStore])
  · intro st t i res now h hwf hlen hhead
    cases hlog : st.log with
    | nil => rw [hlog] at hhead; exact absurd hhead (by simp)
    | cons h0 tl =>
      have hh0 : h0 = h := by
        rw [hlog] at hhead
        simpa using hhead
      subst hh0
      have hlen2 : tl.length = 999 := by
        rw [hlog] at hlen
        simpa using hlen
      have hnotmem : h0 ∉ tl ++ [(saveAnalysis st t i res now).2] := by
        intro hmem
        rcases List.mem_append.mp hmem with hmem1 | hmem2
        · have hnd := hwf.2
          unfold idsOf at hnd
          rw [hlog] at hnd
          simp only [List.map_cons, List.nodup_cons] at hnd
          exact hnd.1 (List.mem_map.mpr ⟨h0, hmem1, rfl⟩)
        · have hid : h0.id < st.nextId := hwf.1 h0 (by rw [hlog]; exact List.mem_cons_self _ _)
          have heq : h0 = (saveAnalysis st t i res now).2 := by simpa using hmem2
          rw [heq] at hid
          exact absurd hid (lt_irrefl _)
      have hlogform : (saveAnalysis st t i res now).1.log
          = tl ++ [(saveAnalysis st t i res now).2] := by
        show trimTo1000 (st.log ++ [mkRecord st t i res now])
          = tl ++ [mkRecord st t i res now]
        rw [hlog]
        unfold trimTo1000
        have hc : 1000 < ((h0 :: tl) ++ [mkRecord st t i res now]).length := by
          simp [hlen2]
        rw [if_pos hc]
        simp [hlen2]
      refine ⟨?_, ?_, ?_, ?_⟩
      · rw [hlogform]
        simp [hlen2]
      · simpa using hlogform
      · rw [hlogform]
        exact hnotmem
      · intro t2 i2 l2 hmem
        have hmem2 := mem_of_mem_history hmem
        rw [hlogform] at hmem2
        exact hnotmem hmem2

set_option maxRecDepth 8192 in
theorem saveAnalysis_cap_fifo_witness :
    (runAppends []).log.length ≤ 1000
    ∧ (saveAnalysis st1000 "employee" "1" mres 1000).1.log.length = 1000
    ∧ mkRec 0 ∉ (saveAnalysis st1000 "employee" "1" mres 1000).1.log
    ∧ mkRec 0 ∉ getAnalysisHistory (saveAnalysis st1000 "employee" "1" mres 1000).1
        "employee" "1" 10 := by
  have hlog : st1000.log = (List.range 1000).map mkRec := rfl
  have hwf : WFStore st1000 := by
    constructor
    · intro r hr
      rw [hlog] at hr
      rcases List.mem_map.mp hr with ⟨j, hj, rfl⟩
      rw [List.mem_range] at hj
      exact hj
    · show (idsOf st1000).Nodup
      unfold idsOf
      rw [hlog, List.map_map]
      have hcomp : ((fun r : AnalysisRecord => r.id) ∘ mkRec) = fun j => j := by
        funext j
        rfl
      rw [hcomp, show (fun j : ℕ => j) = id from rfl, List.map_id]
      exact List.nodup_range 1000
  have hlen : st1000.log.length = 1000 := by
    rw [hlog, List.length_map, List.length_range]
  have hhead : st1000.log.head? = some (mkRec 0) := by
    rw [hlog, show (1000 : ℕ) = 999 + 1 from rfl, List.range_succ_eq_map,
      List.map_cons, List.head?_cons]
  have h2 := saveAnalysis_cap_fifo.2 st1000 "employee" "1" mres 1000 (mkRec 0) hwf hlen hhead
  exact ⟨saveAnalysis_cap_fifo.1 [], h2.1, h2.2.2.1, h2.2.2.2 "employee" "1" 10⟩

/-- C4 counterexample: two appends within the same millisecond produce a
history that is not strictly descending by timestamp (the two records tie). -/
theorem getAnalysisHistory_not_strict :
    ¬ List.Pairwise (fun a b : AnalysisRecord => b.timestamp < a.timestamp)
        (getAnalysisHistory stTie "employee" "1" 10) := by
  intro hp
  have hall : ∀ r ∈ stTie.log, r.timestamp = 5 := by decide
  have hlen : (getAnalysisHistory stTie "employee" "1" 10).length = 2 := by
    unfold getAnalysisHistory
    rw [List.length_take, List.length_mergeSort]
    decide
  cases hl : getAnalysisHistory stTie "employee" "1" 10 with
  | nil => rw [hl] at hlen; simp at hlen
  | cons a tail =>
    cases tail with
    | nil => rw [hl] at hlen; simp at hlen
    | cons b rest =>
      rw [hl] at hp
      have hab := (List.pairwise_cons.mp hp).1 b (List.mem_cons_self b rest)
      have ha : a.timestamp = 5 :=
        hall a (mem_of_mem_history (by rw [hl]; exact List.mem_cons_self a _))
      have hb : b.timestamp = 5 :=
        hall b (mem_of_mem_history
          (by rw [hl]; exact List.mem_cons_of_mem a (List.mem_cons_self b rest)))
      rw [ha, hb] at hab
      exact absurd hab (by decide)

/-- C4 amended: for every store and query, the history result has at most
`limit` records, every returned record matches the requested kind and id and
comes from the log, the result is weakly descending by timestamp (strict up to
timestamp ties), and an unmatched query yields the empty list, not an error. -/
theorem getAnalysisHistory_spec (st : StoreState) (t i : String) (limit : ℕ) :
    (getAnalysisHistory st t i limit).length ≤ limit
    ∧ (∀ r ∈ getAnalysisHistory st t i limit, r.type = t ∧ r.targetId = i ∧ r ∈ st.log)
    ∧ List.Pairwise (fun a b => b.timestamp ≤ a.timestamp) (getAnalysisHistory st t i limit)
    ∧ ((∀ r ∈ st.log, ¬(r.type = t ∧ r.targetId = i)) →
        getAnalysisHistory st t i limit = []) := by
  refine ⟨List.length_take_le limit _, ?_, ?_, ?_⟩
  · intro r hr
    have h1 := List.mem_of_mem_take hr
    rw [List.mem_mergeSort] at h1
    have h2 := List.mem_filter.mp h1
    have h3 := h2.2
    simp only [Bool.and_eq_true, beq_iff_eq] at h3
    exact ⟨h3.1, h3.2, h2.1⟩
  · have htrans : ∀ a b c : AnalysisRecord, decide (b.timestamp ≤ a.timestamp) = true →
        decide (c.timestamp ≤ b.timestamp) = true →
        decide (c.timestamp ≤ a.timestamp) = true := by
      intro a b c hab hbc
      simp only [decide_eq_true_eq] at hab hbc ⊢
      omega
    have htot : ∀ a b : AnalysisRecord,
        (decide (b.timestamp ≤ a.timestamp) || decide (a.timestamp ≤ b.timestamp)) = true := by
      intro a b
      simp only [Bool.or_eq_true, decide_eq_true_eq]
      omega
    have hs := @List.sorted_mergeSort AnalysisRecord
      (fun a b => decide (b.timestamp ≤ a.timestamp)) htrans htot
      (st.log.filter (fun r => r.type == t && r.targetId == i))
    have hp := List.Pairwise.sublist (List.take_sublist limit _) hs
    exact hp.imp (fun hab => by simpa using hab)
  · intro hno
    unfold getAnalysisHistory
    have hfil : st.log.filter (fun r => r.type == t && r.targetId == i) = [] := by
      rw [List.filter_eq_nil_iff]
      intro r hr
      simp only [Bool.and_eq_true, beq_iff_eq, not_and]
      intro h1 h2
      exact hno r hr ⟨h1, h2⟩
    rw [hfil]
    simp

theorem getAnalysisHistory_spec_witness :
    (getAnalysisHistory stTie "employee" "1" 10).length ≤ 10
    ∧ getAnalysisHistory stTie "team" "9" 10 = [] :=
  ⟨(getAnalysisHistory_spec stTie "employee" "1" 10).1,
   (getAnalysisHistory_spec stTie "team" "9" 10).2.2.2 (by decide)⟩

/-- C10: the stats buckets classify by exact "openai", exact "mock" and
substring "fallback"; a record from the parse-fallback path carries source
"openai-parsed", matching none of the three, so there are append sequences
whose by-source counts sum to strictly less than the total. -/
theorem getAnalysisStats_parsed_uncounted :
    (∀ r : AnalysisRecord, r.source = "openai-parsed" →
      r.source ≠ "openai" ∧ r.source ≠ "mock" ∧ includesStr r.source "fallback" = false)
    ∧ ∀ sameMonth withinWeek : ℕ → Bool,
        (getAnalysisStats stParsed sameMonth withinWeek).total = 1
        ∧ (getAnalysisStats stParsed sameMonth withinWeek).bySourceOpenai = 0
        ∧ (getAnalysisStats stParsed sameMonth withinWeek).bySourceMock = 0
        ∧ (getAnalysisStats stParsed sameMonth withinWeek).bySourceFallback = 0
        ∧ (getAnalysisStats stParsed sameMonth withinWeek).bySourceOpenai
            + (getAnalysisStats stParsed sameMonth withinWeek).bySourceMock
            + (getAnalysisStats stParsed sameMonth withinWeek).bySourceFallback
            < (getAnalysisStats stParsed sameMonth withinWeek).total := by
  constructor
  · intro r h
    rw [h]
    exact ⟨by decide, by decide, by decide⟩
  · intro sameMonth withinWeek
    refine ⟨rfl, rfl, rfl, rfl, ?_⟩
    show (0 : ℕ) + 0 + 0 < 1
    decide

theorem getAnalysisStats_parsed_uncounted_witness :
    (saveAnalysis emptyStore "employee" "1" parsedRes 0).2.source ≠ "openai"
    ∧ (saveAnalysis emptyStore "employee" "1" parsedRes 0).2.source ≠ "mock"
    ∧ includesStr (saveAnalysis emptyStore "employee" "1" parsedRes 0).2.source
        "fallback" = false :=
  getAnalysisStats_parsed_uncounted.1 _ rfl

/-- C6 counterexample: on a text with two separate object spans the source's
greedy bare pattern returns the span from the first opening to the last
closing brace — not the first balanced span that the claim describes. -/
theorem extractJSON_not_first_balanced :
    extractJSON "\x7ba\x7d \x7bb\x7d" = "\x7ba\x7d \x7bb\x7d"
    ∧ firstBalancedSpan "\x7ba\x7d \x7bb\x7d" = some "\x7ba\x7d"
    ∧ extractJSON "\x7ba\x7d \x7bb\x7d" ≠ "\x7ba\x7d" :=
  ⟨by decide, by decide, by decide⟩

/-- C6 amended: extraction selects, in order, (a) the capture of the fenced
pattern when it matches (and it cannot match a text with no backtick);
(b) otherwise the span from the first opening brace to the last closing brace
when the latter lies further right; (c) otherwise the raw text. -/
theorem extractJSON_cases (s : String) :
    ((∀ c ∈ s.data, c ≠ Char.ofNat 96) → fencedMatch s.data = none)
    ∧ (∀ m, fencedMatch s.data = some m → extractJSON s = ⟨m⟩)
    ∧ (fencedMatch s.data = none → ∀ i j, firstIdxOf s.data braceOpen = some i →
        lastIdxOf s.data braceClose = some j → i < j →
        extractJSON s = ⟨(s.data.drop i).take (j - i + 1)⟩)
    ∧ (fencedMatch s.data = none → objectMatch s.data = none → extractJSON s = s) := by
  refine ⟨?_, ?_, ?_, ?_⟩
  · intro hnb
    unfold fencedMatch
    rw [List.findSome?_eq_none_iff]
    intro p hp
    have hf : fenceAt s.data p = false := by
      unfold fenceAt
      rw [decide_eq_false_iff_not]
      intro hpre
      have hmem : Char.ofNat 96 ∈ s.data.drop p := hpre.subset (by decide)
      exact hnb _ (List.mem_of_mem_drop hmem) rfl
    simp [tryFenceAt, hf]
  · intro m hm
    unfold extractJSON
    rw [hm]
  · intro hf i j hi hj hij
    simp [extractJSON, hf, objectMatch, hi, hj, hij]
  · intro hf ho
    simp [extractJSON, hf, ho]

theorem extractJSON_cases_witness :
    fencedMatch "hello".data = none
    ∧ extractJSON "hello" = "hello"
    ∧ extractJSON "x\x7ba\x7db" = "\x7ba\x7d" := by
  have h1 := extractJSON_cases "hello"
  have h2 := extractJSON_cases "x\x7ba\x7db"
  exact ⟨h1.1 (by decide), h1.2.2.2 (h1.1 (by decide)) (by decide),
    h2.2.2.1 (by decide) 1 3 (by decide) (by decide) (by decide)⟩

/-- C7: an analyze call for a subject id absent from the store answers with
the distinct NotFound status 404 (not the generic 500) and leaves the analysis
log unchanged — no record is appended. -/
theorem analyzeRoute_unknown_404 (employees : List Employee) (jp : String → Option Json)
    (hasClient : Bool) (call : Except Unit String) (st : StoreState) (id : String)
    (body : AnalyzeBody) (now : ℕ) (hid : ∀ e ∈ employees, e.id ≠ id) :
    (analyzeRoute employees jp hasClient call st id body now).1 = 404
    ∧ (analyzeRoute employees jp hasClient call st id body now).2 = st := by
  have hfind : employees.find? (fun e => e.id == id) = none :=
    List.find?_eq_none.mpr (fun e he => by simpa using hid e he)
  have h1 : "not found".data <:+: " not found".data := by decide
  have h2 : " not found".data <:+: ("Employee with id " ++ id ++ " not found").data := by
    refine ⟨("Employee with id " ++ id).data, [], ?_⟩
    simp [String.data_append]
  have hinc : includesStr ("Employee with id " ++ id ++ " not found") "not found" = true :=
    includesStr_of_infix (h1.trans h2)
  constructor
  · simp [analyzeRoute, getEmployee, hfind, hinc]
  · simp [analyzeRoute, getEmployee, hfind]

theorem analyzeRoute_unknown_404_witness :
    (analyzeRoute empList jpNone true (.error ()) emptyStore "BAD_ID"
        ⟨none, none, none, none, none⟩ 0).1 = 404
    ∧ (analyzeRoute empList jpNone true (.error ()) emptyStore "BAD_ID"
        ⟨none, none, none, none, none⟩ 0).2 = emptyStore :=
  analyzeRoute_unknown_404 empList jpNone true (.error ()) emptyStore "BAD_ID"
    ⟨none, none, none, none, none⟩ 0 (by decide)

theorem countP_bool_split {α : Type} (p : α → Bool) (l : List α) :
    l.countP p + l.countP (fun a => !p a) = l.length := by
  induction l with
  | nil => rfl
  | cons a tail ih =>
    simp only [List.countP_cons, List.length_cons]
    cases h : p a <;> simp [h] <;> omega

theorem batchLoop_counts (employees : List Employee) (jp : String → Option Json)
    (hasClient : Bool) (call : Except Unit String) (aT tR : String) (now : ℕ) :
    ∀ (ids : List String) (st : StoreState),
      (batchLoop employees jp hasClient call aT tR now ids st).1.length
          = ids.countP (fun i => (employees.find? (fun e => e.id == i)).isSome)
      ∧ (batchLoop employees jp hasClient call aT tR now ids st).2.1.length
          = ids.countP (fun i => !(employees.find? (fun e => e.id == i)).isSome) := by
  intro ids
  induction ids with
  | nil => intro st; simp [batchLoop]
  | cons id rest ih =>
    intro st
    cases hf : employees.find? (fun e => e.id == id) with
    | some emp =>
      simp only [batchLoop, getEmployee, hf, List.length_cons, List.countP_cons]
      constructor
      · rw [(ih _).1]
        simp [hf]
      · rw [(ih _).2]
        simp [hf]
    | none =>
      simp only [batchLoop, getEmployee, hf, List.length_cons, List.countP_cons]
      constructor
      · rw [(ih _).1]
        simp [hf]
      · rw [(ih _).2]
        simp [hf]

/-- C8: on a non-empty id list the batch handler processes every id and never
aborts: the summary counts the valid ids as successful, the invalid ids as
failed, total equals successful plus failed, the response stays 200, and the
summary is invariant under permutations of the id list. -/
theorem batchRoute_counts (employees : List Employee) (jp : String → Option Json)
    (hasClient : Bool) (call : Except Unit String) (aT tR : String) (now : ℕ)
    (st : StoreState) (ids : List String) (hne : ids ≠ []) :
    (batchRoute employees jp hasClient call aT tR now st ids).2.1.successful
        = ids.countP (fun i => (employees.find? (fun e => e.id == i)).isSome)
    ∧ (batchRoute employees jp hasClient call aT tR now st ids).2.1.failed
        = ids.countP (fun i => !(employees.find? (fun e => e.id == i)).isSome)
    ∧ (batchRoute employees jp hasClient call aT tR now st ids).2.1.total
        = (batchRoute employees jp hasClient call aT tR now st ids).2.1.successful
          + (batchRoute employees jp hasClient call aT tR now st ids).2.1.failed
    ∧ (batchRoute employees jp hasClient call aT tR now st ids).1 = 200
    ∧ (∀ ids2, ids.Perm ids2 →
        (batchRoute employees jp hasClient call aT tR now st ids2).2.1
          = (batchRoute employees jp hasClient call aT tR now st ids).2.1) := by
  have hemp : ids.isEmpty = false := by
    cases ids with
    | nil => exact absurd rfl hne
    | cons a l => rfl
  have hc := batchLoop_counts employees jp hasClient call aT tR now ids st
  refine ⟨?_, ?_, ?_, ?_, ?_⟩
  · simp only [batchRoute, hemp, Bool.false_eq_true, if_false]
    exact hc.1
  · simp only [batchRoute, hemp, Bool.false_eq_true, if_false]
    exact hc.2
  · simp only [batchRoute, hemp, Bool.false_eq_true, if_false]
    rw [hc.1, hc.2, countP_bool_split]
  · simp [batchRoute, hemp]
  · intro ids2 hperm
    have hne2 : ids2 ≠ [] := by
      intro h
      rw [h] at hperm
      exact hne hperm.eq_nil
    have hemp2 : ids2.isEmpty = false := by
      cases ids2 with
      | nil => exact absurd rfl hne2
      | cons a l => rfl
    have hc2 := batchLoop_counts employees jp hasClient call aT tR now ids2 st
    simp only [batchRoute, hemp, hemp2, Bool.false_eq_true, if_false]
    rw [BatchSummary.mk.injEq]
    refine ⟨hperm.length_eq.symm, ?_, ?_⟩
    · rw [hc.1, hc2.1, hperm.countP_eq]
    · rw [hc.2, hc2.2, hperm.countP_eq]

theorem batchRoute_counts_witness :
    (batchRoute empList jpNone true (.error ()) "comprehensive" "6months" 0 emptyStore
        ["1", "BAD_ID"]).2.1.total = 2
    ∧ (batchRoute empList jpNone true (.error ()) "comprehensive" "6months" 0 emptyStore
        ["1", "BAD_ID"]).2.1.successful = 1
    ∧ (batchRoute empList jpNone true (.error ()) "comprehensive" "6months" 0 emptyStore
        ["1", "BAD_ID"]).2.1.failed = 1 := by
  have h := batchRoute_counts empList jpNone true (.error ()) "comprehensive" "6months" 0
    emptyStore ["1", "BAD_ID"] (by decide)
  refine ⟨?_, ?_, ?_⟩
  · rw [h.2.2.1, h.1, h.2.1]
    decide
  · rw [h.1]
    decide
  · rw [h.2.1]
    decide

/-- C9 counterexample: the name field has no default in the employee template —
a subject with the name missing renders the JS coercion "undefined" into the
prompt, which is not one of the template's named default narratives; so not
every missing field is substituted with a named default. -/
theorem buildEmployeePrompt_missing_name_undefined :
    nameSlot empBlank = "undefined"
    ∧ includesStr (buildEmployeePrompt empBlank) "姓名：undefined" = true
    ∧ "undefined" ∉ employeeTemplateDefaults :=
  ⟨rfl, by decide, by decide⟩

/-- C9 amended: every template field that carries a default narrative is
substituted with that named default when missing, in both the employee and the
team templates; the identity fields (employee name, position, department; team
name) have no default and render a missing value as the literal "undefined". -/
theorem promptSlots_defaults (e : Employee) (t : Team) :
    (e.experience = none → experienceSlot e = "未提供")
    ∧ (e.joinDate = none → joinDateSlot e = "未提供")
    ∧ (e.skills = none → skillsSlot e = "未提供")
    ∧ (e.recentPerformance = none → recentPerformanceSlot e = "穩定表現，持續成長")
    ∧ (e.feedback = none → feedbackSlot e = "積極參與，協作良好")
    ∧ (e.projectContribution = none → projectContributionSlot e = "按時完成任務，品質良好")
    ∧ (e.analysisType = none → analysisTypeSlot e = "綜合分析")
    ∧ (e.timeRange = none → timeRangeSlot e = "近6個月")
    ∧ (e.specialization = none → specializationSlot e = optStr e.position)
    ∧ (e.name = none → nameSlot e = "undefined")
    ∧ (e.position = none → positionSlot e = "undefined")
    ∧ (e.department = none → departmentSlot e = "undefined")
    ∧ (t.department = none → teamDepartmentSlot t = "未提供")
    ∧ (t.memberCount = none → t.members = none → memberCountSlot t = "未知")
    ∧ (t.teamType = none → teamTypeSlot t = "專案團隊")
    ∧ (t.members = none → membersSlot t = "團隊成員資訊未提供")
    ∧ (t.leader = none → leaderSlot t = "未指定")
    ∧ (t.teamExperience = none → teamExperienceSlot t = "2-3年")
    ∧ (t.collaborationMode = none → collaborationModeSlot t = "混合工作模式")
    ∧ (t.communicationFrequency = none → communicationFrequencySlot t = "每日站會 + 週會")
    ∧ (t.decisionMaking = none → decisionMakingSlot t = "共識決策")
    ∧ (t.recentProjects = none → recentProjectsSlot t = "持續進行多個專案")
    ∧ (t.teamPerformance = none → teamPerformanceSlot t = "整體表現良好")
    ∧ (t.collaborationEfficiency = none → collaborationEfficiencySlot t = "高效協作")
    ∧ (t.analysisDepth = none → analysisDepthSlot t = "標準分析")
    ∧ (t.analysisPeriod = none → analysisPeriodSlot t = "近3個月")
    ∧ (t.name = none → teamNameSlot t = "undefined") := by
  refine ⟨?_, ?_, ?_, ?_, ?_, ?_, ?_, ?_, ?_, ?_, ?_, ?_, ?_, ?_, ?_, ?_, ?_, ?_, ?_,
    ?_, ?_, ?_, ?_, ?_, ?_, ?_, ?_⟩ <;>
    · intros
      simp_all [experienceSlot, joinDateSlot, skillsSlot, recentPerformanceSlot,
        feedbackSlot, projectContributionSlot, analysisTypeSlot, timeRangeSlot,
        specializationSlot, nameSlot, positionSlot, departmentSlot, teamDepartmentSlot,
        memberCountSlot, memberCountAlt, teamTypeSlot, membersSlot, leaderSlot,
        teamExperienceSlot, collaborationModeSlot, communicationFrequencySlot,
        decisionMakingSlot, recentProjectsSlot, teamPerformanceSlot,
        collaborationEfficiencySlot, analysisDepthSlot, analysisPeriodSlot, teamNameSlot,
        jsOrStrVal, optStr]

set_option maxRecDepth 8192 in
theorem promptSlots_defaults_witness :
    experienceSlot empBlank = "未提供"
    ∧ membersSlot teamBlank = "團隊成員資訊未提供"
    ∧ includesStr (buildEmployeePrompt empBlank) "近期表現：穩定表現，持續成長" = true := by
  have h := promptSlots_defaults empBlank teamBlank
  exact ⟨h.1 rfl, h.2.2.2.2.2.2.2.2.2.2.2.2.2.2.2.1 rfl, by decide⟩
